import Mathlib

/-!
Shallow embedding of the x402-assured contracts
(src/contracts/escrow/src/lib.rs and src/contracts/reputation/src/lib.rs).

Machine integers (u64) are modelled as Nat together with explicit
wrapping (mod 2^64) at the operations where the Rust release build wraps,
and explicit saturating operations where the source uses saturating_add or
saturating_sub. Pubkey values are modelled as strings; 32-byte hashes and
signature blobs as lists of bytes (Nat). An Anchor instruction that
returns Err aborts the whole transaction, so no account mutation is
committed; operations are therefore embedded as pure functions returning
Except, and the hosted (committed) state on an error is the input state.
-/

namespace X402

abbrev Pubkey := String

def U64_MOD : Nat := 2 ^ 64

/-- Saturating u64 addition (for arguments below 2^64). -/
def satAdd (a b : Nat) : Nat := min (a + b) (U64_MOD - 1)

/-- Checked u64 addition, as in u64 checked_add. -/
def checkedAdd (a b : Nat) : Option Nat :=
  if a + b < U64_MOD then some (a + b) else none

/-- Error codes of the escrow program (AssuredError in the source). -/
inductive AssuredError where
  | InvalidStatus
  | InvalidProvider
  | InvalidPayer
  | InvalidReporter
  | EscrowBalanceLow
  | SignatureTooLong
  | InvalidUnits
deriving DecidableEq

/-- Error codes of the reputation program (ReputationError in the source). -/
inductive ReputationError where
  | InvalidOwner
  | InvalidAmount
  | InsufficientBond
  | InvalidAuthority
deriving DecidableEq

/-- The EscrowCall account. Status encoding follows the source:
0 init, 1 fulfilled, 2 released, 3 refunded. -/
structure EscrowCall where
  call_id : String
  payer : Pubkey
  service_id : String
  provider : Pubkey
  amount : Nat
  start_ts : Nat
  sla_ms : Nat
  dispute_window_s : Nat
  status : Nat
  delivered_ts : Option Nat
  response_hash : List Nat
  disputed : Bool
  total_units : Nat
  units_released : Nat
  provider_sig : List Nat
deriving DecidableEq

/-- Well-formedness of an EscrowCall: the u64 range of the numeric
fields that the arithmetic proofs use, total_units at least 1
(init_payment stores total_units.max(1)), and the data-model invariant
units_released at most total_units. -/
def WF (ec : EscrowCall) : Prop :=
  ec.amount < U64_MOD ∧ ec.total_units < U64_MOD ∧
    1 ≤ ec.total_units ∧ ec.units_released ≤ ec.total_units

instance (ec : EscrowCall) : Decidable (WF ec) := by
  unfold WF; infer_instance

inductive SettlementOutcome where
  | Release
  | Refund
deriving DecidableEq

/-- amount_for_units from the escrow source. base and remainder are the
u64 division and modulus; base * units wraps mod 2^64 as in a release
build; both the index addition and the final addition saturate, as in
the source saturating_add calls. -/
def amount_for_units (ec : EscrowCall) (start units : Nat) : Nat :=
  if units = 0 ∨ ec.total_units = 0 then 0
  else
    let base := ec.amount / ec.total_units
    let remainder := ec.amount % ec.total_units
    let total := base * units % U64_MOD
    if start < remainder then
      let overlap_end := min remainder (satAdd start units)
      if start < overlap_end then satAdd total (overlap_end - start) else total
    else total

/-- evaluate_settlement from the escrow source. Nat subtraction is
truncated at zero, which is exactly u64 saturating_sub. -/
def evaluate_settlement (ec : EscrowCall) (now : Nat) : SettlementOutcome :=
  let delivered_within_sla :=
    (ec.delivered_ts.map (fun ts => decide (ts - ec.start_ts ≤ ec.sla_ms))).getD false
  let dispute_window_elapsed :=
    (ec.delivered_ts.map (fun ts => decide (ec.dispute_window_s ≤ now - ts))).getD true
  if !ec.disputed && delivered_within_sla && dispute_window_elapsed then
    .Release
  else
    .Refund

/-- pay_out from the escrow source, acting on the escrow account balance
(lamports). A zero amount is a no-op; an underfunded escrow fails with
EscrowBalanceLow; otherwise the amount leaves the escrow balance. -/
def pay_out (amount lamports : Nat) : Except AssuredError Nat :=
  if amount = 0 then .ok lamports
  else if lamports < amount then .error .EscrowBalanceLow
  else .ok (lamports - amount)

/-- Return value of apply_partial_release (PartialReleaseState in the
source). -/
structure PartialReleaseState where
  payout : Nat
  units : Nat
  total_units : Nat
  emit_trace : Bool
deriving DecidableEq

/-- apply_partial_release from the escrow source. All requires come
before any field write, so an error leaves the record untouched; the
model returns the updated record only on success. -/
def apply_partial_release (ec : EscrowCall) (chunk_hash : List Nat)
    (units ts : Nat) (sig : List Nat) :
    Except AssuredError (EscrowCall × PartialReleaseState) :=
  if units = 0 then .error .InvalidUnits
  else
    match checkedAdd ec.units_released units with
    | none => .error .InvalidUnits
    | some new_total =>
      if ec.total_units < new_total then .error .InvalidUnits
      else
        let payout := amount_for_units ec ec.units_released units
        let ec1 := { ec with
          units_released := new_total,
          response_hash := chunk_hash,
          provider_sig := sig }
        if new_total = ec.total_units then
          .ok ({ ec1 with delivered_ts := some ts, status := 1 },
               ⟨payout, units, ec.total_units, true⟩)
        else
          .ok (ec1, ⟨payout, units, ec.total_units, false⟩)

/-- Committed record after apply_partial_release: on an error the
transaction aborts and the input record stands. -/
def commitEc (ec : EscrowCall)
    (r : Except AssuredError (EscrowCall × PartialReleaseState)) : EscrowCall :=
  match r with
  | .error _ => ec
  | .ok (ec1, _) => ec1

/-- fulfill from the escrow source: requires status Init, the provider
as caller, and a bounded signature; then marks the call fully
delivered. -/
def fulfill (caller : Pubkey) (ec : EscrowCall) (response_hash : List Nat)
    (ts : Nat) (sig : List Nat) : Except AssuredError EscrowCall :=
  if ec.status ≠ 0 then .error .InvalidStatus
  else if caller ≠ ec.provider then .error .InvalidProvider
  else if 128 < sig.length then .error .SignatureTooLong
  else .ok { ec with
    response_hash := response_hash,
    delivered_ts := some ts,
    status := 1,
    units_released := ec.total_units,
    provider_sig := sig }

/-- In-memory execution of fulfill_partial: identity and signature
checks, then apply_partial_release (which mutates the in-memory
record), then the payout transfer. If the transfer fails the in-memory
record has already been mutated; the second component records the
error. This exhibits the source order of mutation and transfer. -/
def fulfill_partial_mem (caller : Pubkey) (ec : EscrowCall) (lamports : Nat)
    (chunk_hash : List Nat) (units ts : Nat) (sig : List Nat) :
    (EscrowCall × Nat) × Option AssuredError :=
  if caller ≠ ec.provider then ((ec, lamports), some .InvalidProvider)
  else if 128 < sig.length then ((ec, lamports), some .SignatureTooLong)
  else
    match apply_partial_release ec chunk_hash units ts sig with
    | .error e => ((ec, lamports), some e)
    | .ok (ec1, res) =>
      if 0 < res.payout then
        match pay_out res.payout lamports with
        | .error e => ((ec1, lamports), some e)
        | .ok lam1 => ((ec1, lam1), none)
      else ((ec1, lamports), none)

/-- Hosted fulfill_partial: the Anchor runtime commits the account
mutations only when the instruction returns Ok, so an error yields no
new state. -/
def fulfill_partial (caller : Pubkey) (ec : EscrowCall) (lamports : Nat)
    (chunk_hash : List Nat) (units ts : Nat) (sig : List Nat) :
    Except AssuredError (EscrowCall × Nat) :=
  match fulfill_partial_mem caller ec lamports chunk_hash units ts sig with
  | (_, some e) => .error e
  | (st, none) => .ok st

/-- Committed state after fulfill_partial: the input state on error,
the produced state on success. -/
def fulfill_partial_hosted (caller : Pubkey) (ec : EscrowCall) (lamports : Nat)
    (chunk_hash : List Nat) (units ts : Nat) (sig : List Nat) :
    EscrowCall × Nat :=
  match fulfill_partial caller ec lamports chunk_hash units ts sig with
  | .error _ => (ec, lamports)
  | .ok st => st

/-- raise_dispute from the escrow source: the payer (reporter) flags
the call disputed while it is Init or Fulfilled. -/
def raise_dispute (caller : Pubkey) (ec : EscrowCall) (kind : Nat)
    (reason_hash : List Nat) : Except AssuredError EscrowCall :=
  if caller ≠ ec.payer then .error .InvalidReporter
  else if ¬(ec.status = 0 ∨ ec.status = 1) then .error .InvalidStatus
  else .ok { ec with disputed := true }

/-- Result of settle: the final record value at the end of the
instruction (the account is then closed to the payer), the amounts paid
out of escrow custody to the provider and to the payer, and the
residual escrow balance at closure. -/
structure SettleResult where
  record : EscrowCall
  paid_to_provider : Nat
  paid_to_payer : Nat
  lamports_left : Nat
deriving DecidableEq

/-- settle from the escrow source: requires status Init or Fulfilled
and matching payer and provider accounts; evaluates the outcome and
pays the remaining balance accordingly. The unused kind and reason of
the dispute play no role here. -/
def settle (payer provider : Pubkey) (ec : EscrowCall) (lamports now : Nat) :
    Except AssuredError SettleResult :=
  if ¬(ec.status = 1 ∨ ec.status = 0) then .error .InvalidStatus
  else if payer ≠ ec.payer then .error .InvalidPayer
  else if provider ≠ ec.provider then .error .InvalidProvider
  else
    let released_so_far := amount_for_units ec 0 ec.units_released
    let remaining_units := ec.total_units - ec.units_released
    let remaining_amount := ec.amount - released_so_far
    match evaluate_settlement ec now with
    | .Release =>
      let payout :=
        if 0 < remaining_units then
          amount_for_units ec ec.units_released remaining_units
        else 0
      match pay_out payout lamports with
      | .error e => .error e
      | .ok lam1 =>
        .ok ⟨{ ec with units_released := ec.total_units, status := 2 },
             payout, 0, lam1⟩
    | .Refund =>
      match pay_out remaining_amount lamports with
      | .error e => .error e
      | .ok lam1 =>
        .ok ⟨{ ec with status := 3 }, 0, remaining_amount, lam1⟩

/-- The public mutating operations of the escrow program, for stating
lifecycle properties over sequences of instructions. -/
inductive Op where
  | opFulfill (caller : Pubkey) (response_hash : List Nat) (ts : Nat) (sig : List Nat)
  | opChunk (caller : Pubkey) (chunk_hash : List Nat) (units ts : Nat) (sig : List Nat)
  | opDispute (caller : Pubkey) (kind : Nat) (reason_hash : List Nat)
  | opSettle (payer provider : Pubkey) (now : Nat)

/-- One hosted instruction against a live record and its escrow
balance. settle closes the account (close = payer in the source), so a
successful settle yields no live record. opChunk is fulfill_partial. -/
def step (op : Op) (st : EscrowCall × Nat) :
    Except AssuredError (Option (EscrowCall × Nat)) :=
  match op with
  | .opFulfill c rh ts sig =>
    (fulfill c st.1 rh ts sig).map (fun ec1 => some (ec1, st.2))
  | .opChunk c ch u ts sig =>
    ( fulfill_partial c st.1 st.2 ch u ts sig).map some
  | .opDispute c k rh =>
    (raise_dispute c st.1 k rh).map (fun ec1 => some (ec1, st.2))
  | .opSettle p pr now =>
    (settle p pr st.1 st.2 now).map (fun _ => none)

/-- Hosted run of a sequence of instructions: a failing instruction
aborts its transaction and leaves the state unchanged; an instruction
against a closed record fails (the account no longer exists). -/
def runOps (ops : List Op) (st : Option (EscrowCall × Nat)) :
    Option (EscrowCall × Nat) :=
  match ops with
  | [] => st
  | op :: rest =>
    match st with
    | none => runOps rest none
    | some s =>
      match step op s with
      | .error _ => runOps rest (some s)
      | .ok st1 => runOps rest st1

/-- The hard-coded trusted settlement authority of the reputation
program (ESCROW_PROGRAM_ID in the source): the escrow program id. -/
def ESCROW_PROGRAM_ID : Pubkey := "6zpAcx4Yo9MmDf4w8pBGez8bm47zyKuyjr5Y5QkC3ayL"

/-- The Service account of the reputation program. The three f32
outcome accumulators are carried as exact rationals; no claim proved
here depends on their values. -/
structure Service where
  owner : Pubkey
  ok : Rat
  late : Rat
  disputed : Rat
  bond_balance : Nat
  ewma_latency_ms : Nat
  p95_est_ms : Nat
  latency_samples : Nat
deriving DecidableEq

/-- pay_out from the reputation source, acting on the service account
balance (lamports). -/
def rep_pay_out (amount lamports : Nat) : Except ReputationError Nat :=
  if amount = 0 then .ok lamports
  else if lamports < amount then .error .InsufficientBond
  else .ok (lamports - amount)

/-- bond_slash from the reputation source: only the escrow program may
slash; the actual slashed amount is the minimum of the request and the
bonded balance; bond_balance is decremented by the actual amount
(saturating_sub in the source, exact here since actual is at most the
balance). Returns the new service record, the new service account
balance, and the transferred amount. -/
def bond_slash (authority : Pubkey) (svc : Service) (svc_lamports amount : Nat) :
    Except ReputationError (Service × Nat × Nat) :=
  if authority ≠ ESCROW_PROGRAM_ID then .error .InvalidAuthority
  else
    let actual := min amount svc.bond_balance
    if 0 < actual then
      match rep_pay_out actual svc_lamports with
      | .error e => .error e
      | .ok lam1 =>
        .ok ({ svc with bond_balance := svc.bond_balance - actual }, lam1, actual)
    else .ok (svc, svc_lamports, 0)

/-- record_latency from the reputation source. The first sample
initialises both estimates; later samples update them through f64 EWMA
and asymmetric quantile arithmetic, which has no bit-exact shallow
embedding here and is abstracted as the parameter est taking the
current ewma, the current p95 estimate and the sample; every claim
proved about this function holds for every est. The sample counter
saturating-increments on every call, exactly as in the source. -/
def record_latency (est : Nat → Nat → Nat → Nat × Nat) (svc : Service)
    (sample_ms : Nat) : Service :=
  if svc.latency_samples = 0 then
    { svc with
      ewma_latency_ms := sample_ms,
      p95_est_ms := sample_ms,
      latency_samples := satAdd svc.latency_samples 1 }
  else
    { svc with
      ewma_latency_ms := (est svc.ewma_latency_ms svc.p95_est_ms sample_ms).1,
      p95_est_ms := (est svc.ewma_latency_ms svc.p95_est_ms sample_ms).2,
      latency_samples := satAdd svc.latency_samples 1 }

/-- Sample call mirroring the amount_for_units_distributes_evenly test:
amount 100 over 3 units. -/
def ecA : EscrowCall :=
  ⟨"call-1", "payer-1", "svc", "provider-1", 100, 0, 2000, 10, 0, none,
   [], false, 3, 0, []⟩

/-- Record exhibiting u64 wrap in amount_for_units: the maximal amount
over 2^32 units. -/
def ec2x : EscrowCall :=
  ⟨"call-x", "payer-1", "svc", "provider-1", 18446744073709551615, 0, 0, 0,
   0, none, [], false, 4294967296, 0, []⟩

/-- Sample fulfilled call with one of three units released, delivered
within the SLA and past the dispute window at now = 12000. -/
def ecC : EscrowCall :=
  ⟨"call-2", "payer-1", "svc", "provider-1", 100, 0, 2000, 10, 1,
   some 1000, [], false, 3, 1, []⟩

/-- A raw refunded record that still has an unreleased unit. A live
record can never look like this (settle closes the account), but the
bare state machine accepts it. -/
def ecBad : EscrowCall :=
  ⟨"call-b", "payer-1", "svc", "provider-1", 2, 0, 0, 0, 3, none,
   [], false, 2, 1, []⟩

/-- Sample call whose escrow balance is empty, so any positive partial
payout transfer fails. -/
def ec6 : EscrowCall :=
  ⟨"call-6", "payer-1", "svc", "provider-1", 10, 0, 2000, 10, 0, none,
   [], false, 2, 0, []⟩

/-- Sample service record with a bonded stake and no latency samples. -/
def svcW : Service :=
  ⟨"owner-1", 0, 0, 0, 10, 0, 0, 0⟩

/-- A degenerate latency-estimator stand-in for witnesses. -/
def estZero : Nat → Nat → Nat → Nat × Nat := fun _ _ _ => (0, 0)

/-- The sample fulfilled call of ecC, but disputed, so settle refunds. -/
def ecD : EscrowCall := { ecC with disputed := true }

theorem satAdd_eq_of_lt (a b : Nat) (h : a + b < U64_MOD) : satAdd a b = a + b := by
  unfold satAdd U64_MOD at *
  omega

/-- Exact value of amount_for_units on an in-range unit interval: the
base share times the width, plus the overlap of the interval with the
first remainder indices. None of the u64 operations wrap or saturate
there. -/
theorem afu_exact (ec : EscrowCall) (start units : Nat)
    (hA : ec.amount < U64_MOD) (hT : ec.total_units < U64_MOD)
    (hT1 : 1 ≤ ec.total_units) (h : start + units ≤ ec.total_units) :
    amount_for_units ec start units =
      ec.amount / ec.total_units * units +
        (min (ec.amount % ec.total_units) (start + units) -
          min (ec.amount % ec.total_units) start) := by
  by_cases hu : units = 0
  · subst hu
    simp [amount_for_units]
  · have hTne : ec.total_units ≠ 0 := by omega
    have hr : ec.amount % ec.total_units < ec.total_units :=
      Nat.mod_lt _ (by omega)
    have hdm : ec.total_units * (ec.amount / ec.total_units) +
        ec.amount % ec.total_units = ec.amount := Nat.div_add_mod _ _
    have hcomm : ec.amount / ec.total_units * ec.total_units =
        ec.total_units * (ec.amount / ec.total_units) := Nat.mul_comm _ _
    have hbu : ec.amount / ec.total_units * units ≤
        ec.amount / ec.total_units * ec.total_units :=
      Nat.mul_le_mul_left _ (by omega)
    have hmod : ec.amount / ec.total_units * units % U64_MOD =
        ec.amount / ec.total_units * units := Nat.mod_eq_of_lt (by omega)
    have hsat : satAdd start units = start + units :=
      satAdd_eq_of_lt _ _ (by omega)
    unfold amount_for_units
    rw [if_neg (by push_neg; exact ⟨hu, hTne⟩)]
    simp only [hsat, hmod]
    by_cases hs : start < ec.amount % ec.total_units
    · rw [if_pos hs]
      have hoe : start < min (ec.amount % ec.total_units) (start + units) := by
        omega
      rw [if_pos hoe]
      have hb : ec.amount / ec.total_units * units +
          (min (ec.amount % ec.total_units) (start + units) - start) < U64_MOD := by
        omega
      rw [satAdd_eq_of_lt _ _ hb]
      omega
    · rw [if_neg hs]
      omega

/-- amount_for_units is additive over adjacent in-range unit
intervals. -/
theorem afu_add (ec : EscrowCall) (s a b : Nat)
    (hA : ec.amount < U64_MOD) (hT : ec.total_units < U64_MOD)
    (hT1 : 1 ≤ ec.total_units) (h : s + a + b ≤ ec.total_units) :
    amount_for_units ec s a + amount_for_units ec (s + a) b =
      amount_for_units ec s (a + b) := by
  rw [afu_exact ec s a hA hT hT1 (by omega),
      afu_exact ec (s + a) b hA hT hT1 (by omega),
      afu_exact ec s (a + b) hA hT hT1 (by omega)]
  have hd : ec.amount / ec.total_units * a + ec.amount / ec.total_units * b =
      ec.amount / ec.total_units * (a + b) := (Nat.mul_add _ _ _).symm
  have hm1 : min (ec.amount % ec.total_units) s ≤
      min (ec.amount % ec.total_units) (s + a) :=
    min_le_min_left _ (by omega)
  have hm2 : min (ec.amount % ec.total_units) (s + a) ≤
      min (ec.amount % ec.total_units) (s + a + b) :=
    min_le_min_left _ (by omega)
  have hassoc : s + a + b = s + (a + b) := Nat.add_assoc s a b
  rw [← hassoc]
  omega

/-- amount_for_units over the full unit range returns the whole
escrowed amount. -/
theorem afu_full (ec : EscrowCall)
    (hA : ec.amount < U64_MOD) (hT : ec.total_units < U64_MOD)
    (hT1 : 1 ≤ ec.total_units) :
    amount_for_units ec 0 ec.total_units = ec.amount := by
  rw [afu_exact ec 0 ec.total_units hA hT hT1 (by omega)]
  have hr : ec.amount % ec.total_units < ec.total_units :=
    Nat.mod_lt _ (by omega)
  have hdm : ec.total_units * (ec.amount / ec.total_units) +
      ec.amount % ec.total_units = ec.amount := Nat.div_add_mod _ _
  have hcomm : ec.amount / ec.total_units * ec.total_units =
      ec.total_units * (ec.amount / ec.total_units) := Nat.mul_comm _ _
  omega

theorem sum_sub_telescope (f : Nat → Nat) (hf : ∀ i j, i ≤ j → f i ≤ f j)
    (n : Nat) : (∑ i in Finset.range n, (f (i + 1) - f i)) = f n - f 0 := by
  induction n with
  | zero => simp
  | succ n ih =>
    rw [Finset.sum_range_succ, ih]
    have h1 := hf 0 n (Nat.zero_le n)
    have h2 := hf n (n + 1) (Nat.le_succ n)
    omega

/-- The per-unit prorated payouts sum to the escrowed amount. -/
theorem afu_sum (ec : EscrowCall)
    (hA : ec.amount < U64_MOD) (hT : ec.total_units < U64_MOD)
    (hT1 : 1 ≤ ec.total_units) :
    (∑ i in Finset.range ec.total_units, amount_for_units ec i 1) =
      ec.amount := by
  have hr : ec.amount % ec.total_units < ec.total_units :=
    Nat.mod_lt _ (by omega)
  have hdm : ec.total_units * (ec.amount / ec.total_units) +
      ec.amount % ec.total_units = ec.amount := Nat.div_add_mod _ _
  have hmono : ∀ i j, i ≤ j →
      ec.amount / ec.total_units * i + min (ec.amount % ec.total_units) i ≤
        ec.amount / ec.total_units * j + min (ec.amount % ec.total_units) j := by
    intro i j hij
    have h1 : ec.amount / ec.total_units * i ≤ ec.amount / ec.total_units * j :=
      Nat.mul_le_mul_left _ hij
    have h2 : min (ec.amount % ec.total_units) i ≤
        min (ec.amount % ec.total_units) j := min_le_min_left _ hij
    omega
  have hcongr : (∑ i in Finset.range ec.total_units, amount_for_units ec i 1) =
      ∑ i in Finset.range ec.total_units,
        ((fun j => ec.amount / ec.total_units * j +
            min (ec.amount % ec.total_units) j) (i + 1) -
          (fun j => ec.amount / ec.total_units * j +
            min (ec.amount % ec.total_units) j) i) := by
    refine Finset.sum_congr rfl ?_
    intro i hi
    rw [Finset.mem_range] at hi
    rw [afu_exact ec i 1 hA hT hT1 (by omega)]
    have h1 : ec.amount / ec.total_units * (i + 1) =
        ec.amount / ec.total_units * i + ec.amount / ec.total_units * 1 :=
      Nat.mul_add _ _ _
    have h2 : min (ec.amount % ec.total_units) i ≤
        min (ec.amount % ec.total_units) (i + 1) := min_le_min_left _ (by omega)
    simp only []
    omega
  rw [hcongr, sum_sub_telescope _ hmono]
  have hcomm : ec.amount / ec.total_units * ec.total_units =
      ec.total_units * (ec.amount / ec.total_units) := Nat.mul_comm _ _
  simp only [Nat.mul_zero, Nat.min_zero, Nat.add_zero, Nat.zero_add]
  omega

theorem pay_out_eq_of_le (amount lamports : Nat) (h : amount ≤ lamports) :
    pay_out amount lamports = .ok (lamports - amount) := by
  unfold pay_out
  split_ifs with h0 h1
  · rw [h0, Nat.sub_zero]
  · omega
  · rfl

/-- The amount settle pays on Release equals the unreleased remainder
of the escrowed amount. -/
theorem settle_payout_eq (ec : EscrowCall) (hwf : WF ec) :
    (if 0 < ec.total_units - ec.units_released then
        amount_for_units ec ec.units_released
          (ec.total_units - ec.units_released)
      else 0) =
      ec.amount - amount_for_units ec 0 ec.units_released := by
  obtain ⟨hA, hT, hT1, hu⟩ := hwf
  by_cases hc : 0 < ec.total_units - ec.units_released
  · rw [if_pos hc]
    have hadd := afu_add ec 0 ec.units_released
      (ec.total_units - ec.units_released) hA hT hT1 (by omega)
    rw [Nat.zero_add] at hadd
    have heq : ec.units_released + (ec.total_units - ec.units_released) =
        ec.total_units := by omega
    rw [heq, afu_full ec hA hT hT1] at hadd
    omega
  · rw [if_neg hc]
    have heq : ec.units_released = ec.total_units := by omega
    have hfull := afu_full ec hA hT hT1
    rw [heq]
    omega

theorem settle_refund_eq (ec : EscrowCall) (lamports now : Nat)
    (hst : ec.status = 0 ∨ ec.status = 1)
    (hlam : ec.amount - amount_for_units ec 0 ec.units_released ≤ lamports)
    (href : evaluate_settlement ec now = .Refund) :
    settle ec.payer ec.provider ec lamports now =
      .ok ⟨{ ec with status := 3 }, 0,
           ec.amount - amount_for_units ec 0 ec.units_released,
           lamports - (ec.amount - amount_for_units ec 0 ec.units_released)⟩ := by
  unfold settle
  rw [if_neg (fun hcon => hcon (by omega)), if_neg (fun hcon => hcon rfl),
      if_neg (fun hcon => hcon rfl)]
  simp only [href, pay_out_eq_of_le _ _ hlam]

theorem settle_release_eq (ec : EscrowCall) (lamports now : Nat) (hwf : WF ec)
    (hst : ec.status = 0 ∨ ec.status = 1)
    (hlam : ec.amount - amount_for_units ec 0 ec.units_released ≤ lamports)
    (hrel : evaluate_settlement ec now = .Release) :
    settle ec.payer ec.provider ec lamports now =
      .ok ⟨{ ec with units_released := ec.total_units, status := 2 },
           ec.amount - amount_for_units ec 0 ec.units_released, 0,
           lamports - (ec.amount - amount_for_units ec 0 ec.units_released)⟩ := by
  unfold settle
  rw [if_neg (fun hcon => hcon (by omega)), if_neg (fun hcon => hcon rfl),
      if_neg (fun hcon => hcon rfl)]
  simp only [hrel, settle_payout_eq ec hwf, pay_out_eq_of_le _ _ hlam]

/-- apply_partial_release either marks the call Fulfilled or leaves
the status untouched. -/
theorem apply_partial_release_status (ec : EscrowCall) (chunk_hash : List Nat)
    (units ts : Nat) (sig : List Nat) (ec1 : EscrowCall)
    (res : PartialReleaseState)
    (h : apply_partial_release ec chunk_hash units ts sig = .ok (ec1, res)) :
    ec1.status = 1 ∨ ec1.status = ec.status := by
  unfold apply_partial_release at h
  split at h
  · cases h
  · split at h
    · cases h
    · split at h
      · cases h
      · split at h
        · cases h with
          | refl => exact Or.inl rfl
        · cases h with
          | refl => exact Or.inr rfl

/-- fulfill on success marks the call Fulfilled and only fires from
Init. -/
theorem fulfill_status (caller : Pubkey) (ec : EscrowCall)
    (response_hash : List Nat) (ts : Nat) (sig : List Nat) (ec1 : EscrowCall)
    (h : fulfill caller ec response_hash ts sig = .ok ec1) :
    ec1.status = 1 ∧ ec.status = 0 := by
  unfold fulfill at h
  split at h
  · cases h
  · split at h
    · cases h
    · split at h
      · cases h
      · cases h with
        | refl =>
          rename_i h0 _ _
          simp only [ne_eq, not_not] at h0
          exact ⟨rfl, h0⟩

/-- raise_dispute on success leaves the status untouched. -/
theorem raise_dispute_status (caller : Pubkey) (ec : EscrowCall) (kind : Nat)
    (reason_hash : List Nat) (ec1 : EscrowCall)
    (h : raise_dispute caller ec kind reason_hash = .ok ec1) :
    ec1.status = ec.status := by
  unfold raise_dispute at h
  split at h
  · cases h
  · split at h
    · cases h
    · cases h with
      | refl => rfl

/-- fulfill_partial on success either marks the call Fulfilled or
leaves the status untouched. -/
theorem fulfill_partial_status (caller : Pubkey) (ec : EscrowCall)
    (lamports : Nat) (chunk_hash : List Nat) (units ts : Nat) (sig : List Nat)
    (ec1 : EscrowCall) (lam1 : Nat)
    (h : fulfill_partial caller ec lamports chunk_hash units ts sig =
      .ok (ec1, lam1)) :
    ec1.status = 1 ∨ ec1.status = ec.status := by
  unfold fulfill_partial at h
  split at h
  · cases h
  · rename_i st heq
    cases h with
    | refl =>
      unfold fulfill_partial_mem at heq
      split at heq
      · simp at heq
      · split at heq
        · simp at heq
        · split at heq
          · simp at heq
          · rename_i ecr res hok
            split at heq
            · split at heq
              · simp at heq
              · injection heq with heq1 heq2
                injection heq1 with heqa heqb
                subst heqa
                exact apply_partial_release_status ec chunk_hash units ts sig
                  _ res hok
            · injection heq with heq1 heq2
              injection heq1 with heqa heqb
              subst heqa
              exact apply_partial_release_status ec chunk_hash units ts sig
                _ res hok

/-- A successful hosted instruction never lowers the status of a live
record whose status is Init or Fulfilled, and keeps it Init or
Fulfilled. -/
theorem step_status_mono (op : Op) (ec : EscrowCall) (l : Nat)
    (ec1 : EscrowCall) (l1 : Nat) (hs : ec.status ≤ 1)
    (h : step op (ec, l) = .ok (some (ec1, l1))) :
    ec.status ≤ ec1.status ∧ ec1.status ≤ 1 := by
  cases op with
  | opFulfill c rh ts sig =>
    simp only [step] at h
    cases hf : fulfill c ec rh ts sig with
    | error e => rw [hf] at h; cases h
    | ok e2 =>
      rw [hf] at h
      cases h with
      | refl =>
        have hm := fulfill_status c ec rh ts sig _ hf
        omega
  | opChunk c ch u ts sig =>
    simp only [step] at h
    cases hf : fulfill_partial c ec l ch u ts sig with
    | error e => rw [hf] at h; cases h
    | ok st =>
      rw [hf] at h
      cases h with
      | refl =>
        have hm := fulfill_partial_status c ec l ch u ts sig ec1 l1 hf
        omega
  | opDispute c k rh =>
    simp only [step] at h
    cases hf : raise_dispute c ec k rh with
    | error e => rw [hf] at h; cases h
    | ok e2 =>
      rw [hf] at h
      cases h with
      | refl =>
        have hm := raise_dispute_status c ec k rh _ hf
        omega
  | opSettle p pr now =>
    simp only [step] at h
    cases hf : settle p pr ec l now with
    | error e => rw [hf] at h; cases h
    | ok r => rw [hf] at h; cases h

theorem runOps_none (ops : List Op) : runOps ops none = none := by
  induction ops with
  | nil => rfl
  | cons op rest ih => simpa [runOps] using ih

/-- Along any hosted instruction sequence started from a live record
in status Init or Fulfilled, the status never decreases and stays Init
or Fulfilled while the record is live. -/
theorem runOps_status_mono (ops : List Op) :
    ∀ ec l ec1 l1, ec.status ≤ 1 →
      runOps ops (some (ec, l)) = some (ec1, l1) →
      ec.status ≤ ec1.status ∧ ec1.status ≤ 1 := by
  induction ops with
  | nil =>
    intro ec l ec1 l1 hs h
    simp only [runOps, Option.some.injEq, Prod.mk.injEq] at h
    obtain ⟨rfl, rfl⟩ := h
    exact ⟨le_refl _, hs⟩
  | cons op rest ih =>
    intro ec l ec1 l1 hs h
    simp only [runOps] at h
    cases hst : step op (ec, l) with
    | error e =>
      rw [hst] at h
      exact ih ec l ec1 l1 hs h
    | ok st1 =>
      rw [hst] at h
      have h2 : runOps rest st1 = some (ec1, l1) := h
      cases st1 with
      | none =>
        rw [runOps_none] at h2
        cases h2
      | some s =>
        obtain ⟨e2, l2⟩ := s
        have hm := step_status_mono op ec l e2 l2 hs hst
        have hrest := ih e2 l2 ec1 l1 hm.2 h2
        exact ⟨le_trans hm.1 hrest.1, hrest.2⟩

/-- Claim C1: for every amount and every total_units at least 1 (all
u64), the per-unit payouts of the partial release calculator sum
exactly to the escrowed amount, and amount_for_units over the full
range returns the amount exactly. -/
theorem c1_prorate_no_rounding_loss (ec : EscrowCall)
    (hA : ec.amount < U64_MOD) (hT : ec.total_units < U64_MOD)
    (hT1 : 1 ≤ ec.total_units) :
    (∑ i in Finset.range ec.total_units, amount_for_units ec i 1) =
        ec.amount ∧
      amount_for_units ec 0 ec.total_units = ec.amount :=
  ⟨afu_sum ec hA hT hT1, afu_full ec hA hT hT1⟩

/-- Witness for C1 at the sample record with amount 100 over 3
units. -/
theorem c1_prorate_no_rounding_loss_witness :
    (∑ i in Finset.range (3 : Nat), amount_for_units ecA i 1) = 100 ∧
      amount_for_units ecA 0 3 = 100 :=
  c1_prorate_no_rounding_loss ecA (by decide) (by decide) (by decide)

/-- Claim C2 counterexample: with amount 2^64 - 1 and total_units 2^32,
the product base * units wraps mod 2^64 for unit counts beyond
total_units and the final saturating addition clips, so additivity over
adjacent ranges fails at s = 0, a = 1, b = 2^32. -/
theorem c2_afu_additivity_counterexample :
    amount_for_units ec2x 0 1 + amount_for_units ec2x 1 4294967296 ≠
      amount_for_units ec2x 0 (1 + 4294967296) := by decide

/-- Claim C2 (amended): amount_for_units is additive over disjoint
contiguous ranges whenever the combined range stays within the
total_units of the record; outside that range the u64 wrap of
base * units and the saturating addition break the identity. -/
theorem c2_afu_additive_in_range (ec : EscrowCall) (s a b : Nat)
    (hA : ec.amount < U64_MOD) (hT : ec.total_units < U64_MOD)
    (hT1 : 1 ≤ ec.total_units) (h : s + a + b ≤ ec.total_units) :
    amount_for_units ec s a + amount_for_units ec (s + a) b =
      amount_for_units ec s (a + b) :=
  afu_add ec s a b hA hT hT1 h

/-- Witness for the amended C2 at the sample record: the first unit
plus the last two units make the full 100. -/
theorem c2_afu_additive_in_range_witness :
    amount_for_units ecA 0 1 + amount_for_units ecA (0 + 1) 2 =
      amount_for_units ecA 0 (1 + 2) :=
  c2_afu_additive_in_range ecA 0 1 2 (by decide) (by decide) (by decide)
    (by decide)

/-- Claim C3: on a call in status Init or Fulfilled with a sufficiently
funded escrow account, settle pays exactly the unreleased remainder
(the amount minus the amount attributed to already released units) to
the provider on a Release outcome, setting units_released to
total_units and status to Released, and pays the same remainder back
to the payer on a Refund outcome, setting status to Refunded. -/
theorem c3_settle_pays_unreleased_remainder (ec : EscrowCall)
    (lamports now : Nat) (hwf : WF ec) (hst : ec.status = 0 ∨ ec.status = 1)
    (hlam : ec.amount - amount_for_units ec 0 ec.units_released ≤ lamports) :
    (evaluate_settlement ec now = .Release →
      settle ec.payer ec.provider ec lamports now =
        .ok ⟨{ ec with units_released := ec.total_units, status := 2 },
             ec.amount - amount_for_units ec 0 ec.units_released, 0,
             lamports -
               (ec.amount - amount_for_units ec 0 ec.units_released)⟩) ∧
    (evaluate_settlement ec now = .Refund →
      settle ec.payer ec.provider ec lamports now =
        .ok ⟨{ ec with status := 3 }, 0,
             ec.amount - amount_for_units ec 0 ec.units_released,
             lamports -
               (ec.amount - amount_for_units ec 0 ec.units_released)⟩) :=
  ⟨fun hrel => settle_release_eq ec lamports now hwf hst hlam hrel,
   fun href => settle_refund_eq ec lamports now hst hlam href⟩

/-- Witness for C3: one of three units already released on a 100-unit
escrow, outcome Release, so 100 - 34 = 66 goes to the provider. -/
theorem c3_settle_pays_unreleased_remainder_witness :
    settle ecC.payer ecC.provider ecC 100 12000 =
      .ok ⟨{ ecC with units_released := 3, status := 2 }, 66, 0, 34⟩ :=
  (c3_settle_pays_unreleased_remainder ecC 100 12000 (by decide)
    (Or.inr rfl) (by decide)).1 (by decide)

/-- Claim C4: evaluate_settlement returns Release exactly when the call
is undisputed, was delivered within the SLA, and the dispute window
has elapsed; in every other case (including the undelivered case,
which counts as window-elapsed but not within-SLA) it returns Refund.
Nat subtraction is the saturating time arithmetic of the source. -/
theorem c4_evaluate_release_iff (ec : EscrowCall) (now : Nat) :
    (evaluate_settlement ec now = .Release ↔
      (ec.disputed = false ∧ ∃ ts, ec.delivered_ts = some ts ∧
        ts - ec.start_ts ≤ ec.sla_ms ∧ ec.dispute_window_s ≤ now - ts)) ∧
    (evaluate_settlement ec now ≠ .Release →
      evaluate_settlement ec now = .Refund) := by
  constructor
  · unfold evaluate_settlement
    cases hd : ec.delivered_ts with
    | none => simp [hd]
    | some ts =>
      cases hb : ec.disputed with
      | false => simp [hd, hb]
      | true => simp [hd, hb]
  · intro h
    cases h2 : evaluate_settlement ec now with
    | Release => exact absurd h2 h
    | Refund => rfl

/-- Witness for C4: the sample fulfilled call evaluates to Release at
now = 12000. -/
theorem c4_evaluate_release_iff_witness :
    evaluate_settlement ecC 12000 = .Release :=
  (c4_evaluate_release_iff ecC 12000).1.mpr
    ⟨rfl, 1000, rfl, by decide, by decide⟩

/-- Claim C5 counterexample: the bare state machine accepts
fulfill_partial on a Refunded record that still has an unreleased unit
and resets its status to Fulfilled, a regression from 3 to 1. (Such a
record is never live after settle, which closes the account.) -/
theorem c5_status_regression_counterexample :
    (runOps [Op.opChunk ecBad.provider [] 1 5 []]
        (some (ecBad, 10))).map (fun s => s.1.status) = some 1 ∧
      ecBad.status = 3 :=
  ⟨rfl, rfl⟩

/-- Claim C5 (amended): started from any live record in status Init or
Fulfilled (the only statuses a live record can have, since settle
closes the account it released or refunded), every sequence of hosted
operations leaves the status monotonically nondecreasing. -/
theorem c5_status_monotone (ops : List Op) (ec : EscrowCall) (l : Nat)
    (ec1 : EscrowCall) (l1 : Nat) (hs : ec.status ≤ 1)
    (h : runOps ops (some (ec, l)) = some (ec1, l1)) :
    ec.status ≤ ec1.status :=
  (runOps_status_mono ops ec l ec1 l1 hs h).1

/-- Witness for the amended C5: a dispute leaves the sample Init call
in a status at least Init. -/
theorem c5_status_monotone_witness :
    ecA.status ≤ ({ ecA with disputed := true } : EscrowCall).status :=
  c5_status_monotone [Op.opDispute ecA.payer 0 []] ecA 5
    { ecA with disputed := true } 5 (by decide) rfl

/-- apply_partial_release never errors once its three unit checks
pass. -/
theorem apply_partial_release_ok_of (ec : EscrowCall) (chunk_hash : List Nat)
    (units ts : Nat) (sig : List Nat) (h1 : ¬units = 0)
    (h2 : ec.units_released + units < U64_MOD)
    (h3 : ¬ec.total_units < ec.units_released + units) :
    ∀ e, apply_partial_release ec chunk_hash units ts sig ≠ .error e := by
  intro e he
  have hca : checkedAdd ec.units_released units =
      some (ec.units_released + units) := by
    unfold checkedAdd
    rw [if_pos h2]
  unfold apply_partial_release at he
  rw [if_neg h1, hca] at he
  split at he
  · rename_i heq
    simp at heq
  · rename_i nt heq
    injection heq with heq1
    subst heq1
    rw [if_neg h3] at he
    split at he <;> cases he

/-- Claim C6: when fulfill_partial returns an error (identity check,
signature bound, unit check, or the payout transfer itself), the
committed record and escrow balance are exactly the input ones: the
transfer and the bookkeeping commit as one unit or not at all. -/
theorem c6_fulfill_partial_error_atomic (caller : Pubkey) (ec : EscrowCall)
    (lamports : Nat) (chunk_hash : List Nat) (units ts : Nat) (sig : List Nat)
    (e : AssuredError)
    (herr : fulfill_partial caller ec lamports chunk_hash units ts sig =
      .error e) :
    fulfill_partial_hosted caller ec lamports chunk_hash units ts sig =
        (ec, lamports) ∧
      (fulfill_partial_hosted caller ec lamports chunk_hash units ts
          sig).1.units_released = ec.units_released ∧
      (fulfill_partial_hosted caller ec lamports chunk_hash units ts
          sig).1.response_hash = ec.response_hash ∧
      (fulfill_partial_hosted caller ec lamports chunk_hash units ts
          sig).1.provider_sig = ec.provider_sig ∧
      (fulfill_partial_hosted caller ec lamports chunk_hash units ts
          sig).1.delivered_ts = ec.delivered_ts ∧
      (fulfill_partial_hosted caller ec lamports chunk_hash units ts
          sig).1.status = ec.status := by
  have hh : fulfill_partial_hosted caller ec lamports chunk_hash units ts
      sig = (ec, lamports) := by
    unfold fulfill_partial_hosted
    rw [herr]
  exact ⟨hh, by rw [hh], by rw [hh], by rw [hh], by rw [hh], by rw [hh]⟩

/-- Witness for C6: the sample empty-escrow call has a positive payout,
the transfer fails with EscrowBalanceLow after the in-memory record was
already advanced, and the committed state is unchanged. -/
theorem c6_fulfill_partial_error_atomic_witness :
    fulfill_partial_hosted ec6.provider ec6 0 [] 1 5 [] = (ec6, 0) :=
  (c6_fulfill_partial_error_atomic ec6.provider ec6 0 [] 1 5 []
    .EscrowBalanceLow rfl).1

/-- Claim C7: apply_partial_release fails with InvalidUnits exactly
when units is zero, or units_released + units overflows u64, or
units_released + units exceeds total_units; on any error the committed
record is unchanged (every check precedes every field write). -/
theorem c7_apply_partial_release_rejects (ec : EscrowCall)
    (chunk_hash : List Nat) (units ts : Nat) (sig : List Nat) :
    (apply_partial_release ec chunk_hash units ts sig =
        .error .InvalidUnits ↔
      (units = 0 ∨ U64_MOD ≤ ec.units_released + units ∨
        ec.total_units < ec.units_released + units)) ∧
    (∀ e, apply_partial_release ec chunk_hash units ts sig = .error e →
      commitEc ec (apply_partial_release ec chunk_hash units ts sig) = ec) := by
  by_cases h1 : units = 0
  · have herr : apply_partial_release ec chunk_hash units ts sig =
        .error .InvalidUnits := by
      unfold apply_partial_release
      rw [if_pos h1]
    refine ⟨⟨fun _ => Or.inl h1, fun _ => herr⟩, fun e he => ?_⟩
    rw [herr]
    rfl
  · by_cases h2 : ec.units_released + units < U64_MOD
    · have hca : checkedAdd ec.units_released units =
          some (ec.units_released + units) := by
        unfold checkedAdd
        rw [if_pos h2]
      by_cases h3 : ec.total_units < ec.units_released + units
      · have herr : apply_partial_release ec chunk_hash units ts sig =
            .error .InvalidUnits := by
          unfold apply_partial_release
          rw [if_neg h1]
          simp [hca, h3]
        refine ⟨⟨fun _ => Or.inr (Or.inr h3), fun _ => herr⟩, fun e he => ?_⟩
        rw [herr]
        rfl
      · have hne := apply_partial_release_ok_of ec chunk_hash units ts sig
          h1 h2 h3
        have h2n : ¬U64_MOD ≤ ec.units_released + units := by omega
        refine ⟨⟨fun hx => absurd hx (hne _), fun hx => ?_⟩,
          fun e he => absurd he (hne _)⟩
        rcases hx with hx | hx | hx
        · exact absurd hx h1
        · exact absurd hx h2n
        · exact absurd hx h3
    · have hca : checkedAdd ec.units_released units = none := by
        unfold checkedAdd
        rw [if_neg h2]
      have herr : apply_partial_release ec chunk_hash units ts sig =
          .error .InvalidUnits := by
        unfold apply_partial_release
        rw [if_neg h1]
        simp [hca]
      refine ⟨⟨fun _ => Or.inr (Or.inl (by omega)), fun _ => herr⟩,
        fun e he => ?_⟩
      rw [herr]
      rfl

/-- Witness for C7: zero units are rejected and the committed record is
the input record. -/
theorem c7_apply_partial_release_rejects_witness :
    apply_partial_release ecA [] 0 5 [] = .error .InvalidUnits ∧
      commitEc ecA (apply_partial_release ecA [] 0 5 []) = ecA := by
  have h := c7_apply_partial_release_rejects ecA [] 0 5 []
  exact ⟨h.1.mpr (Or.inl rfl), h.2 .InvalidUnits (h.1.mpr (Or.inl rfl))⟩

/-- Claim C8: bond_slash succeeds only for the fixed escrow-program
authority, transfers exactly the minimum of the requested amount and
the bonded balance, and decrements bond_balance by exactly that actual
amount, so the balance never underflows. -/
theorem c8_bond_slash_min_and_authority (authority : Pubkey) (svc : Service)
    (svc_lamports amount : Nat) :
    (∀ svc1 lam1 t,
      bond_slash authority svc svc_lamports amount = .ok (svc1, lam1, t) →
        authority = ESCROW_PROGRAM_ID ∧ t = min amount svc.bond_balance ∧
          svc1.bond_balance + t = svc.bond_balance ∧
          svc1.bond_balance ≤ svc.bond_balance ∧
          lam1 = svc_lamports - t) ∧
    (authority ≠ ESCROW_PROGRAM_ID →
      bond_slash authority svc svc_lamports amount =
        .error .InvalidAuthority) := by
  constructor
  · intro svc1 lam1 t h
    simp only [bond_slash] at h
    split at h
    · cases h
    · rename_i hauth
      rw [not_not] at hauth
      have hmin : min amount svc.bond_balance ≤ svc.bond_balance :=
        Nat.min_le_right _ _
      split at h
      · rename_i hpos
        unfold rep_pay_out at h
        split at h
        · cases h
        · rename_i lam2 heq
          cases h with
          | refl =>
            split at heq
            · rename_i hz
              exact absurd hz (Nat.pos_iff_ne_zero.mp hpos)
            · split at heq
              · cases heq
              · injection heq with heq1
                refine ⟨hauth, rfl, ?_, ?_, heq1.symm⟩
                · show svc.bond_balance - min amount svc.bond_balance +
                    min amount svc.bond_balance = svc.bond_balance
                  omega
                · show svc.bond_balance - min amount svc.bond_balance ≤
                    svc.bond_balance
                  omega
      · rename_i hpos
        cases h with
        | refl =>
          refine ⟨hauth, by omega, by omega, le_refl _, by omega⟩
  · intro hne
    unfold bond_slash
    rw [if_pos hne]

/-- Witness for C8: slashing 4 out of a bond of 10 moves exactly 4 and
leaves 6 bonded. -/
theorem c8_bond_slash_min_and_authority_witness :
    ESCROW_PROGRAM_ID = ESCROW_PROGRAM_ID ∧
      (4 : Nat) = min 4 svcW.bond_balance ∧
      ({ svcW with bond_balance := 6 } : Service).bond_balance + 4 =
        svcW.bond_balance ∧
      ({ svcW with bond_balance := 6 } : Service).bond_balance ≤
        svcW.bond_balance ∧
      (46 : Nat) = 50 - 4 :=
  (c8_bond_slash_min_and_authority ESCROW_PROGRAM_ID svcW 50 4).1
    { svcW with bond_balance := 6 } 46 4 rfl

/-- Claim C9: the first latency sample initialises both the EWMA and
the p95 estimate to the sample, and the sample counter
saturating-increments by one on every call, whatever the later-sample
estimator computes. -/
theorem c9_record_latency_first_sample_and_counter
    (est : Nat → Nat → Nat → Nat × Nat) (svc : Service) (sample_ms : Nat) :
    (record_latency est svc sample_ms).latency_samples =
        satAdd svc.latency_samples 1 ∧
      (svc.latency_samples = 0 →
        (record_latency est svc sample_ms).ewma_latency_ms = sample_ms ∧
          (record_latency est svc sample_ms).p95_est_ms = sample_ms) := by
  unfold record_latency
  by_cases h : svc.latency_samples = 0
  · rw [if_pos h]
    exact ⟨rfl, fun _ => ⟨rfl, rfl⟩⟩
  · rw [if_neg h]
    exact ⟨rfl, fun h0 => absurd h0 h⟩

/-- Witness for C9: the sample service has no samples yet, so both
estimates become 150 and the counter becomes 1. -/
theorem c9_record_latency_witness :
    (record_latency estZero svcW 150).latency_samples =
        satAdd svcW.latency_samples 1 ∧
      ((record_latency estZero svcW 150).ewma_latency_ms = 150 ∧
        (record_latency estZero svcW 150).p95_est_ms = 150) :=
  ⟨(c9_record_latency_first_sample_and_counter estZero svcW 150).1,
   (c9_record_latency_first_sample_and_counter estZero svcW 150).2 rfl⟩

/-- Claim C10: when settle resolves to Refund it does not touch
units_released; only the Release branch sets it to total_units, so a
refunded call still carries its partial release count in the final
record value. -/
theorem c10_refund_preserves_units_released (ec : EscrowCall)
    (lamports now : Nat) (hst : ec.status = 0 ∨ ec.status = 1)
    (hlam : ec.amount - amount_for_units ec 0 ec.units_released ≤ lamports)
    (href : evaluate_settlement ec now = .Refund) :
    settle ec.payer ec.provider ec lamports now =
        .ok ⟨{ ec with status := 3 }, 0,
             ec.amount - amount_for_units ec 0 ec.units_released,
             lamports -
               (ec.amount - amount_for_units ec 0 ec.units_released)⟩ ∧
      ({ ec with status := 3 } : EscrowCall).units_released =
        ec.units_released :=
  ⟨settle_refund_eq ec lamports now hst hlam href, rfl⟩

/-- Witness for C10: the disputed sample call refunds 66 to the payer
and keeps units_released at 1 of 3. -/
theorem c10_refund_preserves_units_released_witness :
    settle ecD.payer ecD.provider ecD 100 12000 =
        .ok ⟨{ ecD with status := 3 }, 0, 66, 34⟩ ∧
      ({ ecD with status := 3 } : EscrowCall).units_released =
        ecD.units_released :=
  c10_refund_preserves_units_released ecD 100 12000 (Or.inr rfl)
    (by decide) (by decide)

end X402
